import Mathlib

/-!
Shallow embedding of the gesture-interaction core of the
react-timeseries-charts repository: `src/components/EventHandler.js`
(pan / drag-zoom / wheel-zoom / pinch-zoom controller) and
`src/components/Brush.js` (draggable time-range selector).

Time instants are epoch milliseconds modelled as `ℤ`.  Pixel coordinates are
modelled as `ℤ` (the source rounds all pixel positions with `Math.round`
before use, so integer arithmetic is exact).  The few places where genuinely
fractional JavaScript numbers appear (the scale factor and divisions inside
`triggerZoom`) are modelled as `ℚ`, and each JavaScript truncation point
(`parseInt`, `new Date(x)`) is modelled explicitly with `jsTrunc`.
A JavaScript `undefined`/`NaN` coordinate flowing through arithmetic is
modelled with `Option ℤ` (`none` = NaN): NaN propagates through arithmetic
and makes every comparison false, which is exactly what the guards in the
source do or fail to do with it.
-/

/-- JavaScript `parseInt` applied to a finite numeric value (equivalently
`new Date(x).getTime()` for finite `x`): truncation toward zero. -/
def jsTrunc (q : ℚ) : ℤ := if 0 ≤ q then ⌊q⌋ else ⌈q⌉

/-- JavaScript number arithmetic in the move paths, where an undefined
coordinate enters as NaN: `none` is NaN, and subtraction propagates it. -/
def jsub : Option ℤ → Option ℤ → Option ℤ
  | some a, some b => some (a - b)
  | _, _ => none

/-- JavaScript `<` on possibly-NaN numbers: any comparison with NaN is false. -/
def jlt : Option ℤ → Option ℤ → Bool
  | some a, some b => decide (a < b)
  | _, _ => false

/-- JavaScript `>` on possibly-NaN numbers: any comparison with NaN is false. -/
def jgt : Option ℤ → Option ℤ → Bool
  | some a, some b => decide (b < a)
  | _, _ => false

/-- Decimal character string JavaScript produces for an integer-valued
number (`String(n)`). -/
def jsNumChars (n : ℤ) : List Char :=
  if n < 0 then '-' :: Nat.toDigits 10 n.natAbs else Nat.toDigits 10 n.natAbs

/-- Lexicographic (UTF-16 code unit) strict comparison of two character
lists, as used by the default comparator of `Array.prototype.sort`. -/
def charsLt : List Char → List Char → Bool
  | [], [] => false
  | [], _ :: _ => true
  | _ :: _, [] => false
  | a :: as, b :: bs =>
    if a.toNat < b.toNat then true
    else if b.toNat < a.toNat then false
    else charsLt as bs

/-- JavaScript `[a, b].sort()` on a two-element numeric array: the DEFAULT
comparator compares the decimal string forms lexicographically (the source
passes no numeric comparator), swapping exactly when `String(b) < String(a)`. -/
def jsSortPair (a b : ℤ) : ℤ × ℤ :=
  if charsLt (jsNumChars b) (jsNumChars a) then (b, a) else (a, b)

/-- Callbacks the EventHandler component can invoke, with the arguments it
passes (`zoom b e` is `onZoom(new TimeRange(b, e))`). -/
inductive EHCall where
  | zoom (b e : ℤ)
  | mouseMove (x y : ℤ)
  | mouseClick (x y : ℤ)
deriving DecidableEq, Repr

/-- Props of `EventHandler` that the gesture logic reads.  `invert px` is
`scale.invert(px).getTime()`; `domainBegin`/`domainEnd` are
`scale.domain()[0/1].getTime()`; `offsetLeft`/`offsetTop` are the element
offset used by `getOffsetCentralPosition`; the `has*` flags record which
optional callbacks are supplied. -/
structure EHProps where
  enablePanZoom : Bool
  enableDragZoom : Bool
  minDuration : Option ℤ
  minTime : Option ℤ
  maxTime : Option ℤ
  domainBegin : ℤ
  domainEnd : ℤ
  invert : ℤ → ℤ
  offsetLeft : ℤ
  offsetTop : ℤ
  hasOnZoom : Bool
  hasOnMouseMove : Bool
  hasOnMouseClick : Bool
  hasOnPinchZoomStart : Bool
  hasOnPinchZoomEnd : Bool

/-- Mutable component state of `EventHandler` (`this.state` plus the
`previousDiff` instance field is modelled separately where needed). -/
structure EHState where
  isPinchZooming : Bool
  isPanning : Bool
  isDragging : Bool
  initialPanBegin : Option ℤ
  initialPanEnd : Option ℤ
  initialPanPosition : Option (ℤ × ℤ)
  initialDragZoom : Option ℤ
  currentDragZoom : Option ℤ
deriving Repr

/-- State installed by the `EventHandler` constructor (drag fields are
absent, i.e. `undefined`, hence falsy / `none`). -/
def ehInitState : EHState :=
  { isPinchZooming := false
    isPanning := false
    isDragging := false
    initialPanBegin := none
    initialPanEnd := none
    initialPanPosition := none
    initialDragZoom := none
    currentDragZoom := none }

/-- `EventHandler.handleUserInteractionStart` for an event at page
coordinates `(pageX, pageY)`: when `enableDragZoom` it records the
offset-relative x as both drag anchors, and when `enablePanZoom` it snapshots
the scale domain and the page position. -/
def handleUserInteractionStart (p : EHProps) (s : EHState) (pageX pageY : ℤ) : EHState :=
  let s1 :=
    if p.enableDragZoom then
      { s with isDragging := true
               initialDragZoom := some (pageX - p.offsetLeft)
               currentDragZoom := some (pageX - p.offsetLeft) }
    else s
  if p.enablePanZoom then
    { s1 with isPanning := true
              initialPanBegin := some p.domainBegin
              initialPanEnd := some p.domainEnd
              initialPanPosition := some (pageX, pageY) }
  else s1

/-- `EventHandler.handleUserInteractionMove`.  Coordinates are `Option ℤ`
(`none` = `undefined`); the guard returns immediately, with no state change
and no callback, when either coordinate is undefined.  While panning it
shifts the captured initial range by the inverted pixel offset, clamps
against `minTime` then `maxTime` re-deriving the opposite edge from the
captured duration, and emits `onZoom`. -/
def handleUserInteractionMove (p : EHProps) (s : EHState) (pageX pageY : Option ℤ) :
    EHState × List EHCall :=
  match pageX, pageY with
  | some x, some y =>
    let offsetX := x - p.offsetLeft
    let offsetY := y - p.offsetTop
    let s1 := if s.isDragging then { s with currentDragZoom := some offsetX } else s
    if s.isPanning then
      match s.initialPanPosition, s.initialPanBegin, s.initialPanEnd with
      | some xy0, some ipb, some ipe =>
        let timeOffset := p.invert x - p.invert xy0.1
        let nb0 := ipb - timeOffset
        let ne0 := ipe - timeOffset
        let dur := ipe - ipb
        let p1 :=
          match p.minTime with
          | some mn => if nb0 < mn then (mn, mn + dur) else (nb0, ne0)
          | none => (nb0, ne0)
        let p2 :=
          match p.maxTime with
          | some mx => if p1.2 > mx then (mx - dur, mx) else p1
          | none => p1
        (s1, if p.hasOnZoom then [EHCall.zoom p2.1 p2.2] else [])
      | _, _, _ => (s1, [])
    else
      (s1, if p.hasOnMouseMove then [EHCall.mouseMove offsetX offsetY] else [])
  | _, _ => (s, [])

/-- `EventHandler.handleUserInteractionEnd` for a release at defined page
coordinates.  `isPanningEnd` / `isDraggingEnd` reproduce the source
conditions exactly: an array anchor is always truthy, a numeric drag anchor
is truthy only when nonzero, and both use the strict `> 2` pixel test.
Click and tracker callbacks fire only when neither test passes; the
drag-zoom release clamps begin up to `minTime`, end down to `maxTime`, and
then orders the pair with the default (lexicographic) array sort. -/
def handleUserInteractionEnd (p : EHProps) (s : EHState) (pageX pageY : ℤ) :
    EHState × List EHCall :=
  let offsetX := pageX - p.offsetLeft
  let offsetY := pageY - p.offsetTop
  let isPanningEnd : Bool :=
    match s.initialPanPosition with
    | some xy0 => decide (2 < (pageX - xy0.1).natAbs)
    | none => false
  let isDraggingEnd : Bool :=
    match s.initialDragZoom with
    | some idz => decide (idz ≠ 0) && decide (2 < (offsetX - idz).natAbs)
    | none => false
  let moveCalls :=
    if p.hasOnMouseMove && !isPanningEnd && !isDraggingEnd then
      [EHCall.mouseMove offsetX offsetY]
    else []
  let clickCalls :=
    if p.hasOnMouseClick && !isPanningEnd && !isDraggingEnd then
      [EHCall.mouseClick offsetX offsetY]
    else []
  let s1z :=
    if p.enableDragZoom then
      let zc :=
        if isDraggingEnd then
          let st := p.invert (s.initialDragZoom.getD 0)
          let en := p.invert (s.currentDragZoom.getD 0)
          let nb :=
            match p.minTime with
            | some mn => if st < mn then mn else st
            | none => st
          let ne :=
            match p.maxTime with
            | some mx => if en > mx then mx else en
            | none => en
          let pr := jsSortPair nb ne
          if p.hasOnZoom then [EHCall.zoom pr.1 pr.2] else []
        else []
      ({ s with isDragging := false
                initialDragZoom := none
                initialPanEnd := none
                currentDragZoom := none }, zc)
    else (s, [])
  let s2 :=
    if p.enablePanZoom then
      { s1z.1 with isPanning := false
                   initialPanBegin := none
                   initialPanEnd := none
                   initialPanPosition := none }
    else s1z.1
  (s2, moveCalls ++ clickCalls ++ s1z.2)

/-- `EventHandler.triggerZoom` (used by the wheel and pinch zoom paths).
`beginScaled`/`endScaled` start as the `parseInt`-truncated centered scaling;
if `minDuration` is set (and nonzero) and the scaled duration falls below
it, they are replaced by the exact rational expansion about the center
(whose width is exactly `minDuration`).  The `duration` variable, however,
keeps the PRE-expansion value `(e - b) * scale` (capped by
`maxTime - minTime` when both bounds are present), and the subsequent
`minTime`/`maxTime` range clamps re-derive the opposite edge from that
stale value.  The emitted pair passes through `new Date(_)`, i.e. one more
truncation toward zero. -/
def triggerZoom (p : EHProps) (b e c : ℤ) (scale : ℚ) : List EHCall :=
  let beginScaled : ℚ := ((c - jsTrunc (((c : ℚ) - (b : ℚ)) * scale) : ℤ) : ℚ)
  let endScaled : ℚ := ((c + jsTrunc (((e : ℚ) - (c : ℚ)) * scale) : ℤ) : ℚ)
  let duration : ℚ := ((e : ℚ) - (b : ℚ)) * scale
  let bePair : ℚ × ℚ :=
    match p.minDuration with
    | some mD =>
      if mD ≠ 0 ∧ duration < (mD : ℚ) then
        ((c : ℚ) - (((c : ℚ) - (b : ℚ)) / ((e : ℚ) - (b : ℚ))) * (mD : ℚ),
         (c : ℚ) + (((e : ℚ) - (c : ℚ)) / ((e : ℚ) - (b : ℚ))) * (mD : ℚ))
      else (beginScaled, endScaled)
    | none => (beginScaled, endScaled)
  let duration2 : ℚ :=
    match p.minTime, p.maxTime with
    | some mn, some mx =>
      if duration > ((mx - mn : ℤ) : ℚ) then ((mx - mn : ℤ) : ℚ) else duration
    | _, _ => duration
  let q1 : ℚ × ℚ :=
    match p.minTime with
    | some mn => if bePair.1 < (mn : ℚ) then ((mn : ℚ), (mn : ℚ) + duration2) else bePair
    | none => bePair
  let q2 : ℚ × ℚ :=
    match p.maxTime with
    | some mx => if q1.2 > (mx : ℚ) then ((mx : ℚ) - duration2, (mx : ℚ)) else q1
    | none => q1
  if p.hasOnZoom then [EHCall.zoom (jsTrunc q2.1) (jsTrunc q2.2)] else []

/-- Scale factor computed by `handleScrollWheel`: `1 + deltaY * 0.001`
clamped into `[0.1, 3]`. -/
def wheelScale (deltaY : ℚ) : ℚ :=
  let s : ℚ := 1 + deltaY * (1 / 1000)
  if s > 3 then 3 else if s < 1 / 10 then 1 / 10 else s

/-- Interaction sites of the Brush component
(`this.state.brushingInitializationSite`). -/
inductive BrushSite where
  | brush
  | overlay
  | handleLeft
  | handleRight
deriving DecidableEq, Repr

/-- Props of `Brush` that the drag logic reads.  `invert px` is
`timeScale.invert(px).getTime()`; the viewport is
`TimeRange(invert 0, invert width)`; `offsetLeft` is the overlay element
offset used for overlay-site coordinates. -/
structure BrushProps where
  width : ℤ
  invert : ℤ → ℤ
  offsetLeft : ℤ
  hasOnTimeRangeChanged : Bool

/-- Mutable component state of `Brush` relevant to a drag. -/
structure BrushState where
  isBrushing : Bool
  brushInitSite : Option BrushSite
  initialBrushBeginTime : Option ℤ
  initialBrushEndTime : Option ℤ
  initialBrushXYPosition : Option (ℤ × ℤ)
deriving Repr

/-- `timeScale.invert` applied to a possibly-NaN pixel value: the scale is
affine, so NaN in gives NaN (an invalid Date, whose `getTime()` is NaN). -/
def jinvert (p : BrushProps) : Option ℤ → Option ℤ
  | some px => some (p.invert px)
  | none => none

/-- `Brush.timeRangeUpdateCheck` for a move at page coordinates
`(pageX, pageY)` (`none` = `undefined`; the source has NO undefined guard
here, so NaN flows through the arithmetic).  Returns `some (b, e)` when
`onTimeRangeChanged` is invoked with `TimeRange(b, e)` and `none` when no
callback fires.  The overlay site grows the range from the captured anchor,
clamping the moving edge to the viewport; the brush-body and handle sites
translate the captured edges by a per-edge constrained offset and swap the
pair when it comes out inverted. -/
def timeRangeUpdateCheck (p : BrushProps) (s : BrushState) (pageX _pageY : Option ℤ) :
    Option (Option ℤ × Option ℤ) :=
  let vb := p.invert 0
  let ve := p.invert p.width
  if s.isBrushing then
    match s.initialBrushBeginTime, s.initialBrushEndTime with
    | some tb, some te =>
      let pr : Option ℤ × Option ℤ :=
        if s.brushInitSite = some BrushSite.overlay then
          let xx := jsub pageX (some p.offsetLeft)
          let t := jinvert p xx
          if jlt t (some tb) then
            (if jlt t (some vb) then some vb else t,
             if jgt (some tb) (some ve) then some ve else some tb)
          else
            (if jlt (some tb) (some vb) then some vb else some tb,
             if jgt t (some ve) then some ve else t)
        else
          match s.initialBrushXYPosition with
          | some xy0 =>
            let timeOffset := jsub (some (p.invert xy0.1)) (jinvert p pageX)
            let soc :=
              if jlt (jsub (some tb) timeOffset) (some vb) then some (tb - vb)
              else timeOffset
            let eoc :=
              if jgt (jsub (some te) timeOffset) (some ve) then some (te - ve)
              else timeOffset
            let nb :=
              if s.brushInitSite = some BrushSite.brush ∨
                  s.brushInitSite = some BrushSite.handleLeft then
                jsub (some tb) soc
              else some tb
            let ne :=
              if s.brushInitSite = some BrushSite.brush ∨
                  s.brushInitSite = some BrushSite.handleRight then
                jsub (some te) eoc
              else some te
            if jgt nb ne then (ne, nb) else (nb, ne)
          | none => (none, none)
      if p.hasOnTimeRangeChanged then some pr else none
    | _, _ => none
  else none

/-- Pinch-lifecycle callbacks of `EventHandler`. -/
inductive PinchCall where
  | start
  | stop
deriving DecidableEq, Repr

/-- The two optional pinch callbacks. -/
structure PinchProps where
  hasOnPinchZoomStart : Bool
  hasOnPinchZoomEnd : Bool
deriving DecidableEq, Repr

/-- Projection of `EventHandler.handleTouchStart` onto the `isPinchZooming`
flag and the pinch callbacks, for an event leaving `n` active touches.
The nested `handleUserInteractionStart`/`handleUserInteractionEnd` calls
neither read nor write `isPinchZooming` and emit no pinch callback, so this
projection is exact for them. -/
def handleTouchStartPinch (p : PinchProps) (flag : Bool) (n : ℕ) : Bool × List PinchCall :=
  if 1 < n then
    if p.hasOnPinchZoomStart && !flag then (true, [PinchCall.start])
    else (flag, [])
  else (flag, [])

/-- Projection of `EventHandler.handleTouchDone` onto the `isPinchZooming`
flag and the pinch callbacks, for an event leaving `n` active touches.
The pinch-end block runs BEFORE and independently of the `n < 2` check in
the source, so `n` is deliberately unused here. -/
def handleTouchDonePinch (p : PinchProps) (flag : Bool) (_n : ℕ) : Bool × List PinchCall :=
  if p.hasOnPinchZoomEnd && flag then (false, [PinchCall.stop])
  else (flag, [])

/-- A touch lifecycle event, carrying the number of touches active after it
(`e.touches.length`). -/
inductive TouchEv where
  | tstart (n : ℕ)
  | tdone (n : ℕ)
deriving DecidableEq, Repr

/-- One touch event processed by the pinch projection. -/
def touchStepPinch (p : PinchProps) (flag : Bool) : TouchEv → Bool × List PinchCall
  | TouchEv.tstart n => handleTouchStartPinch p flag n
  | TouchEv.tdone n => handleTouchDonePinch p flag n

/-- Run a sequence of touch events through the pinch projection, collecting
the fired pinch callbacks in order. -/
def runTouchPinch (p : PinchProps) (flag : Bool) : List TouchEv → Bool × List PinchCall
  | [] => (flag, [])
  | ev :: rest =>
    let st := touchStepPinch p flag ev
    let r := runTouchPinch p st.1 rest
    (r.1, st.2 ++ r.2)

/-- Checks that a list of pinch callbacks strictly alternates, starting
with `start` when `flag` is `false` (no pinch in progress) and with `stop`
when `flag` is `true`. -/
def pinchAlt : Bool → List PinchCall → Bool
  | _, [] => true
  | false, PinchCall.start :: r => pinchAlt true r
  | false, PinchCall.stop :: _ => false
  | true, PinchCall.stop :: r => pinchAlt false r
  | true, PinchCall.start :: _ => false


/-- A concrete mid-drag Brush state used by several examples below: a
brush-body drag of the range [400, 500], anchored at page x 800. -/
def brushDragState : BrushState :=
  { isBrushing := true
    brushInitSite := some BrushSite.brush
    initialBrushBeginTime := some 400
    initialBrushEndTime := some 500
    initialBrushXYPosition := some (800, 0) }

/-- Base EventHandler props with every optional feature disabled and the
identity time scale, updated field-by-field in the concrete instances
below. -/
def ehBaseProps : EHProps :=
  { enablePanZoom := false
    enableDragZoom := false
    minDuration := none
    minTime := none
    maxTime := none
    domainBegin := 0
    domainEnd := 0
    invert := fun px => px
    offsetLeft := 0
    offsetTop := 0
    hasOnZoom := false
    hasOnMouseMove := false
    hasOnMouseClick := false
    hasOnPinchZoomStart := false
    hasOnPinchZoomEnd := false }

/-- Base Brush props: a 1000-pixel-wide viewport over the identity time
scale, so the viewport is the time range [0, 1000]. -/
def brushBaseProps : BrushProps :=
  { width := 1000
    invert := fun px => px
    offsetLeft := 0
    hasOnTimeRangeChanged := true }

/-- C1: for every pan move event processed while a pan gesture is active
(initial range and initial position captured) and `onZoom` supplied, the
range emitted via `onZoom` has width exactly `initialPanEnd -
initialPanBegin`, whatever the `minTime`/`maxTime` bounds do: the clamps
shift the window, never resize it. -/
theorem pan_move_preserves_duration (p : EHProps) (s : EHState)
    (x y x0 y0 ipb ipe : ℤ)
    (hpan : s.isPanning = true)
    (hpos : s.initialPanPosition = some (x0, y0))
    (hb : s.initialPanBegin = some ipb)
    (he : s.initialPanEnd = some ipe)
    (hz : p.hasOnZoom = true) :
    ∃ nb ne : ℤ,
      (handleUserInteractionMove p s (some x) (some y)).2 = [EHCall.zoom nb ne] ∧
      ne - nb = ipe - ipb := by
  simp only [handleUserInteractionMove, hpan, hpos, hb, he, hz, if_true]
  rcases p.minTime with _ | mn <;> rcases p.maxTime with _ | mx <;>
    dsimp only <;> (try split_ifs) <;>
    exact ⟨_, _, rfl, by omega⟩

/-- Witness for `pan_move_preserves_duration` at a concrete panning state
with both bounds set and the `minTime` clamp firing. -/
theorem pan_move_preserves_duration_witness :
    ∃ nb ne : ℤ,
      (handleUserInteractionMove
        { enablePanZoom := true, enableDragZoom := false, minDuration := none,
          minTime := some 500, maxTime := some 5000, domainBegin := 1000,
          domainEnd := 2000, invert := fun t => t, offsetLeft := 0, offsetTop := 0,
          hasOnZoom := true, hasOnMouseMove := false, hasOnMouseClick := false,
          hasOnPinchZoomStart := false, hasOnPinchZoomEnd := false }
        { ehInitState with
          isPanning := true
          initialPanBegin := some 1000
          initialPanEnd := some 2000
          initialPanPosition := some (100, 50) }
        (some 700) (some 50)).2 = [EHCall.zoom nb ne] ∧
      ne - nb = 2000 - 1000 :=
  pan_move_preserves_duration _ _ 700 50 100 50 1000 2000 rfl rfl rfl rfl rfl

/-- C2 counterexample: with both `enablePanZoom` and `enableDragZoom` set
(nothing in the component forbids that combination), a single
interaction-start event from the constructor state turns on BOTH the pan
flag and the drag-zoom flag at once. -/
theorem gesture_flags_not_exclusive_counterexample :
    (handleUserInteractionStart
      { ehBaseProps with enablePanZoom := true, enableDragZoom := true }
      ehInitState 100 40).isPanning = true ∧
    (handleUserInteractionStart
      { ehBaseProps with enablePanZoom := true, enableDragZoom := true }
      ehInitState 100 40).isDragging = true := by
  exact ⟨rfl, rfl⟩

/-- C2 amended: provided at most one of `enablePanZoom` and `enableDragZoom`
is set and the instance is gesture-idle (no gesture flag currently set), an
interaction-start event leaves at most one of the three gesture flags set;
with both props set, a single start event activates pan and drag-zoom
simultaneously, so the at-most-one-gesture invariant does not hold in
general. -/
theorem gesture_flags_exclusive_amended (p : EHProps) (s : EHState) (x y : ℤ)
    (hen : ¬(p.enablePanZoom = true ∧ p.enableDragZoom = true))
    (hpz : s.isPinchZooming = false)
    (hp : s.isPanning = false) (hd : s.isDragging = false) :
    ¬((handleUserInteractionStart p s x y).isPanning = true ∧
      (handleUserInteractionStart p s x y).isDragging = true) ∧
    ¬((handleUserInteractionStart p s x y).isPanning = true ∧
      (handleUserInteractionStart p s x y).isPinchZooming = true) ∧
    ¬((handleUserInteractionStart p s x y).isDragging = true ∧
      (handleUserInteractionStart p s x y).isPinchZooming = true) := by
  simp only [handleUserInteractionStart]
  rcases hep : p.enablePanZoom <;> rcases hed : p.enableDragZoom <;> simp_all

/-- Witness for `gesture_flags_exclusive_amended`: pan-only configuration
from the constructor state. -/
theorem gesture_flags_exclusive_amended_witness :
    ¬((handleUserInteractionStart { ehBaseProps with enablePanZoom := true }
        ehInitState 9 9).isPanning = true ∧
      (handleUserInteractionStart { ehBaseProps with enablePanZoom := true }
        ehInitState 9 9).isDragging = true) ∧
    ¬((handleUserInteractionStart { ehBaseProps with enablePanZoom := true }
        ehInitState 9 9).isPanning = true ∧
      (handleUserInteractionStart { ehBaseProps with enablePanZoom := true }
        ehInitState 9 9).isPinchZooming = true) ∧
    ¬((handleUserInteractionStart { ehBaseProps with enablePanZoom := true }
        ehInitState 9 9).isDragging = true ∧
      (handleUserInteractionStart { ehBaseProps with enablePanZoom := true }
        ehInitState 9 9).isPinchZooming = true) :=
  gesture_flags_exclusive_amended _ _ 9 9 (by decide) rfl rfl rfl

/-- C3 counterexample: wheel zoom with `deltaY = 2000` (scale clamps to 3)
on domain [1000, 1200] centered at 1100, with `minDuration = 1000` and
`minTime = 700`.  The minDuration expansion produces (600, 1600), width
exactly 1000, but the `minTime` clamp then recomputes the end edge from the
STALE pre-expansion duration (200 * 3 = 600), emitting (700, 1300) whose
width 600 is below the `minDuration` floor. -/
theorem zoom_duration_floor_counterexample :
    triggerZoom
      { ehBaseProps with
        minDuration := some 1000, minTime := some 700, hasOnZoom := true }
      1000 1200 1100 (wheelScale 2000) =
      [EHCall.zoom 700 1300] ∧ (1300 : ℤ) - 700 < 1000 := by
  constructor
  · norm_num [triggerZoom, wheelScale, jsTrunc, ehBaseProps]
  · decide

/-- C3 amended: when the `minDuration` expansion branch fires (scaled
duration below the floor), the expanded range has width exactly
`minDuration`, and the emitted range keeps a width of at least `minDuration`
PROVIDED neither the `minTime` nor the `maxTime` range clamp then fires and
the expanded begin edge is a nonnegative epoch time; when a range clamp does
fire after the expansion, the re-derived edge uses the stale pre-expansion
scaled duration and the emitted width can drop below `minDuration`. -/
theorem zoom_duration_floor_amended (p : EHProps) (b e c mD : ℤ) (scale : ℚ)
    (hmD : p.minDuration = some mD) (hpos : 0 < mD)
    (hbe : b < e)
    (hexp : ((e : ℚ) - (b : ℚ)) * scale < (mD : ℚ))
    (hlo : 0 ≤ (c : ℚ) - (((c : ℚ) - (b : ℚ)) / ((e : ℚ) - (b : ℚ))) * (mD : ℚ))
    (hmn : ∀ mn, p.minTime = some mn →
      (mn : ℚ) ≤ (c : ℚ) - (((c : ℚ) - (b : ℚ)) / ((e : ℚ) - (b : ℚ))) * (mD : ℚ))
    (hmx : ∀ mx, p.maxTime = some mx →
      (c : ℚ) + (((e : ℚ) - (c : ℚ)) / ((e : ℚ) - (b : ℚ))) * (mD : ℚ) ≤ (mx : ℚ))
    (hz : p.hasOnZoom = true) :
    ∃ nb ne : ℤ, triggerZoom p b e c scale = [EHCall.zoom nb ne] ∧
      (mD : ℤ) ≤ ne - nb := by
  have hne2 : ((e : ℚ) - (b : ℚ)) ≠ 0 := by
    have hblt : (b : ℚ) < (e : ℚ) := by exact_mod_cast hbe
    linarith
  have heq : (c : ℚ) + (((e : ℚ) - (c : ℚ)) / ((e : ℚ) - (b : ℚ))) * (mD : ℚ) =
      ((c : ℚ) - (((c : ℚ) - (b : ℚ)) / ((e : ℚ) - (b : ℚ))) * (mD : ℚ)) + (mD : ℚ) := by
    field_simp
    ring
  have hcond : mD ≠ 0 ∧ ((e : ℚ) - (b : ℚ)) * scale < (mD : ℚ) := ⟨by omega, hexp⟩
  have h1 : jsTrunc ((c : ℚ) - (((c : ℚ) - (b : ℚ)) / ((e : ℚ) - (b : ℚ))) * (mD : ℚ)) =
      ⌊(c : ℚ) - (((c : ℚ) - (b : ℚ)) / ((e : ℚ) - (b : ℚ))) * (mD : ℚ)⌋ := if_pos hlo
  have hpq : (0 : ℚ) ≤ (mD : ℚ) := by exact_mod_cast le_of_lt hpos
  have h2 : jsTrunc ((c : ℚ) + (((e : ℚ) - (c : ℚ)) / ((e : ℚ) - (b : ℚ))) * (mD : ℚ)) =
      ⌊(c : ℚ) - (((c : ℚ) - (b : ℚ)) / ((e : ℚ) - (b : ℚ))) * (mD : ℚ)⌋ + mD := by
    rw [heq, jsTrunc, if_pos (by linarith)]
    exact_mod_cast Int.floor_add_int _ mD
  simp only [triggerZoom, hmD, hz, if_pos hcond]
  rcases hminT : p.minTime with _ | mn <;> rcases hmaxT : p.maxTime with _ | mx <;>
    dsimp only <;> rw [if_pos trivial]
  · exact ⟨_, _, rfl, by rw [h1, h2]; omega⟩
  · rw [if_neg (not_lt.mpr (hmx mx hmaxT))]
    exact ⟨_, _, rfl, by rw [h1, h2]; omega⟩
  · rw [if_neg (not_lt.mpr (hmn mn hminT))]
    exact ⟨_, _, rfl, by rw [h1, h2]; omega⟩
  · rw [if_neg (not_lt.mpr (hmn mn hminT))]
    dsimp only
    rw [if_neg (not_lt.mpr (hmx mx hmaxT))]
    exact ⟨_, _, rfl, by rw [h1, h2]; omega⟩

/-- Witness for `zoom_duration_floor_amended`: no time bounds, expansion
branch firing, emitted width exactly the floor. -/
theorem zoom_duration_floor_amended_witness :
    ∃ nb ne : ℤ,
      triggerZoom { ehBaseProps with minDuration := some 1000, hasOnZoom := true }
        1000 1200 1100 3 = [EHCall.zoom nb ne] ∧ (1000 : ℤ) ≤ ne - nb :=
  zoom_duration_floor_amended _ 1000 1200 1100 1000 3 rfl (by decide) (by decide)
    (by norm_num) (by norm_num) (fun mn h => by simp [ehBaseProps] at h) (fun mx h => by simp [ehBaseProps] at h) rfl

/-- C4 counterexample: boundary case.  A drag-zoom release whose net pixel
movement is EXACTLY 2 (anchor offset 10, release offset 12): the strict
`> 2` test in `handleUserInteractionEnd` classifies it as a click, firing
`onMouseClick` and NOT `onZoom`, whereas the claim requires movement of 2
pixels to be treated as a drag. -/
theorem click_drag_boundary_counterexample :
    ((12 : ℤ) - 10).natAbs = 2 ∧
    (handleUserInteractionEnd
      { ehBaseProps with
        enableDragZoom := true, hasOnZoom := true, hasOnMouseClick := true }
      { ehInitState with
        isDragging := true
        initialDragZoom := some 10
        currentDragZoom := some 12 }
      12 0).2 = [EHCall.mouseClick 12 0] := by
  exact ⟨rfl, rfl⟩

/-- C4 amended: the release-time classification threshold is strict.
With a drag-zoom gesture whose captured anchor is nonzero, pan inactive,
and both callbacks supplied: net movement of AT MOST 2 pixels invokes the
click callback and never the zoom callback, and net movement strictly
greater than 2 pixels invokes the zoom callback and never the click
callback — so exactly 2 pixels is a click, not a drag. -/
theorem click_drag_threshold_amended (p : EHProps) (s : EHState) (x y idz : ℤ)
    (hdz : p.enableDragZoom = true)
    (hidz : s.initialDragZoom = some idz) (hnz : idz ≠ 0)
    (hpan : s.initialPanPosition = none)
    (hc : p.hasOnMouseClick = true) (hz : p.hasOnZoom = true) :
    (((x - p.offsetLeft) - idz).natAbs ≤ 2 →
      EHCall.mouseClick (x - p.offsetLeft) (y - p.offsetTop) ∈
          (handleUserInteractionEnd p s x y).2 ∧
        ∀ nb ne : ℤ, EHCall.zoom nb ne ∉ (handleUserInteractionEnd p s x y).2) ∧
    (2 < ((x - p.offsetLeft) - idz).natAbs →
      (∃ nb ne : ℤ, EHCall.zoom nb ne ∈ (handleUserInteractionEnd p s x y).2) ∧
        ∀ a b : ℤ, EHCall.mouseClick a b ∉ (handleUserInteractionEnd p s x y).2) := by
  constructor
  · intro hle
    have hd : ¬(2 < ((x - p.offsetLeft) - idz).natAbs) := by omega
    simp only [handleUserInteractionEnd, hidz, hpan, hc, hz, hdz]
    rcases hmm : p.hasOnMouseMove <;>
      simp [hd, hnz]
  · intro hgt
    simp only [handleUserInteractionEnd, hidz, hpan, hc, hz, hdz]
    rcases hmm : p.hasOnMouseMove <;>
      simp [hgt, hnz]

/-- Witness for `click_drag_threshold_amended` at the concrete boundary
state used in the counterexample. -/
theorem click_drag_threshold_amended_witness :
    ((((12 : ℤ) - 0) - 10).natAbs ≤ 2 →
      EHCall.mouseClick ((12 : ℤ) - 0) ((0 : ℤ) - 0) ∈
          (handleUserInteractionEnd
            { ehBaseProps with
              enableDragZoom := true, hasOnZoom := true, hasOnMouseClick := true }
            { ehInitState with
              isDragging := true
              initialDragZoom := some 10
              currentDragZoom := some 12 }
            12 0).2 ∧
        ∀ nb ne : ℤ, EHCall.zoom nb ne ∉
          (handleUserInteractionEnd
            { ehBaseProps with
              enableDragZoom := true, hasOnZoom := true, hasOnMouseClick := true }
            { ehInitState with
              isDragging := true
              initialDragZoom := some 10
              currentDragZoom := some 12 }
            12 0).2) ∧
    (2 < (((12 : ℤ) - 0) - 10).natAbs →
      (∃ nb ne : ℤ, EHCall.zoom nb ne ∈
        (handleUserInteractionEnd
          { ehBaseProps with
            enableDragZoom := true, hasOnZoom := true, hasOnMouseClick := true }
          { ehInitState with
            isDragging := true
            initialDragZoom := some 10
            currentDragZoom := some 12 }
          12 0).2) ∧
        ∀ a b : ℤ, EHCall.mouseClick a b ∉
          (handleUserInteractionEnd
            { ehBaseProps with
              enableDragZoom := true, hasOnZoom := true, hasOnMouseClick := true }
            { ehInitState with
              isDragging := true
              initialDragZoom := some 10
              currentDragZoom := some 12 }
            12 0).2) := by
  exact click_drag_threshold_amended
    { ehBaseProps with
      enableDragZoom := true, hasOnZoom := true, hasOnMouseClick := true }
    { ehInitState with
      isDragging := true
      initialDragZoom := some 10
      currentDragZoom := some 12 }
    12 0 10 rfl rfl (by decide) rfl rfl rfl

/-- C5: evaluation of the drag-zoom release at the failing input.  With the
identity scale, anchor 200 and release 1000 (movement 800 > 2, no time
bounds), the source computes `[200, 1000].sort()` with the DEFAULT
comparator, which compares decimal strings; since the string of 1000 sorts
before the string of 200, `onZoom` is invoked with `TimeRange(1000, 200)`,
an inverted range with begin > end — contradicting the claim that the
emitted pair is in ascending numeric order with begin <= end. -/
theorem drag_zoom_release_lexicographic_sort_bug :
    (handleUserInteractionEnd
      { ehBaseProps with enableDragZoom := true, hasOnZoom := true }
      { ehInitState with
        isDragging := true
        initialDragZoom := some 200
        currentDragZoom := some 1000 }
      1000 0).2 = [EHCall.zoom 1000 200] ∧ (200 : ℤ) < 1000 := by
  exact ⟨rfl, by decide⟩

/-- Helper: closed form of the non-overlay (brush-body / handle-left /
handle-right) branch of `timeRangeUpdateCheck` for defined coordinates.
The moved edge(s) shift by the inverted pixel offset, each clamped ONLY
against its own viewport bound, and the pair is swapped when inverted. -/
theorem timeRangeUpdateCheck_nonoverlay (p : BrushProps) (s : BrushState) (st : BrushSite)
    (x y tb te x0 y0 : ℤ)
    (hb : s.isBrushing = true)
    (hsite : s.brushInitSite = some st) (hov : st ≠ BrushSite.overlay)
    (htb : s.initialBrushBeginTime = some tb)
    (hte : s.initialBrushEndTime = some te)
    (hxy : s.initialBrushXYPosition = some (x0, y0))
    (hcb : p.hasOnTimeRangeChanged = true) :
    timeRangeUpdateCheck p s (some x) (some y) =
      some (
        let vb := p.invert 0
        let ve := p.invert p.width
        let toff := p.invert x0 - p.invert x
        let nb0 := if st = BrushSite.brush ∨ st = BrushSite.handleLeft then
            (if tb - toff < vb then vb else tb - toff) else tb
        let ne0 := if st = BrushSite.brush ∨ st = BrushSite.handleRight then
            (if ve < te - toff then ve else te - toff) else te
        if ne0 < nb0 then (some ne0, some nb0) else (some nb0, some ne0)) := by
  have hov2 : (some st = some BrushSite.overlay) = False := by simp [hov]
  simp only [timeRangeUpdateCheck, hb, htb, hte, hxy, hsite, hcb, if_true, hov2, if_false,
    jsub, jinvert, jlt, jgt, Option.some.injEq, decide_eq_true_eq]
  cases st
  case overlay => exact absurd rfl hov
  all_goals
    simp only [Option.some.injEq, reduceCtorEq, or_false, or_true, true_or, false_or,
      or_self, if_true, if_false]
  all_goals
    split_ifs <;>
      simp_all only [jsub, jlt, jgt, decide_eq_true_eq, Prod.mk.injEq, Option.some.injEq,
        true_and, and_true] <;>
      omega

/-- C6: for every move event with defined coordinates processed during a
brush-body, handle-left or handle-right drag, the range handed to
`onTimeRangeChanged` satisfies begin <= end: the non-overlay branch of
`timeRangeUpdateCheck` swaps an inverted computed pair before emitting. -/
theorem brush_swap_invariant (p : BrushProps) (s : BrushState) (st : BrushSite)
    (x y tb te x0 y0 : ℤ)
    (hb : s.isBrushing = true)
    (hsite : s.brushInitSite = some st) (hov : st ≠ BrushSite.overlay)
    (htb : s.initialBrushBeginTime = some tb)
    (hte : s.initialBrushEndTime = some te)
    (hxy : s.initialBrushXYPosition = some (x0, y0))
    (hcb : p.hasOnTimeRangeChanged = true) :
    ∃ nb ne : ℤ,
      timeRangeUpdateCheck p s (some x) (some y) = some (some nb, some ne) ∧
        nb ≤ ne := by
  rw [timeRangeUpdateCheck_nonoverlay p s st x y tb te x0 y0 hb hsite hov htb hte hxy hcb]
  dsimp only
  split_ifs <;> exact ⟨_, _, rfl, by omega⟩

/-- Witness for `brush_swap_invariant`: a brush-body drag far to the left,
where the computed pair comes out inverted and is swapped before emission. -/
theorem brush_swap_invariant_witness :
    ∃ nb ne : ℤ,
      timeRangeUpdateCheck brushBaseProps brushDragState (some 100) (some 0) =
        some (some nb, some ne) ∧ nb ≤ ne := by
  exact brush_swap_invariant brushBaseProps brushDragState BrushSite.brush 100 0 400 500 800 0
    rfl rfl (by decide) rfl rfl rfl rfl

/-- C7 counterexample: brush-body drag of [400, 500] far to the left
(page x 800 to 100, identity scale, viewport [0, 1000]).  The begin edge
clamps to the viewport begin 0, the end edge is NOT clamped against the
viewport begin and lands at -200; after the swap the emitted range is
(-200, 0), whose begin edge lies strictly OUTSIDE the viewport instead of
equal to the bound. -/
theorem brush_viewport_clamp_counterexample :
    timeRangeUpdateCheck brushBaseProps brushDragState (some 100) (some 0) =
      some (some (-200), some 0) ∧
    (-200 : ℤ) < brushBaseProps.invert 0 := by
  exact ⟨rfl, by decide⟩

/-- C7 amended: in brush-body and handle drags each MOVED edge is clamped
only against its own viewport bound — the shifted begin is emitted as
`max (viewport begin) (shifted begin)`, the shifted end as
`min (viewport end) (shifted end)` — so an edge dragged beyond its own
bound sits exactly at that bound; but no edge is checked against the
opposite bound, fixed edges are not clamped at all, and after the final
swap an emitted edge can lie outside the viewport. -/
theorem brush_viewport_clamp_amended (p : BrushProps) (s : BrushState) (st : BrushSite)
    (x y tb te x0 y0 : ℤ)
    (hb : s.isBrushing = true)
    (hsite : s.brushInitSite = some st) (hov : st ≠ BrushSite.overlay)
    (htb : s.initialBrushBeginTime = some tb)
    (hte : s.initialBrushEndTime = some te)
    (hxy : s.initialBrushXYPosition = some (x0, y0))
    (hcb : p.hasOnTimeRangeChanged = true) :
    timeRangeUpdateCheck p s (some x) (some y) =
      some (
        let vb := p.invert 0
        let ve := p.invert p.width
        let toff := p.invert x0 - p.invert x
        let nb0 := if st = BrushSite.brush ∨ st = BrushSite.handleLeft then
            max vb (tb - toff) else tb
        let ne0 := if st = BrushSite.brush ∨ st = BrushSite.handleRight then
            min ve (te - toff) else te
        if nb0 ≤ ne0 then (some nb0, some ne0) else (some ne0, some nb0)) := by
  rw [timeRangeUpdateCheck_nonoverlay p s st x y tb te x0 y0 hb hsite hov htb hte hxy hcb]
  dsimp only
  split_ifs <;>
    simp only [Prod.mk.injEq, Option.some.injEq, true_and, and_true] <;>
    omega

/-- Witness for `brush_viewport_clamp_amended` at the concrete drag of the
counterexample. -/
theorem brush_viewport_clamp_amended_witness :
    timeRangeUpdateCheck brushBaseProps brushDragState (some 100) (some 0) =
      some (
        let vb := brushBaseProps.invert 0
        let ve := brushBaseProps.invert brushBaseProps.width
        let toff := brushBaseProps.invert 800 - brushBaseProps.invert 100
        let nb0 := if BrushSite.brush = BrushSite.brush ∨
            BrushSite.brush = BrushSite.handleLeft then
            max vb (400 - toff) else 400
        let ne0 := if BrushSite.brush = BrushSite.brush ∨
            BrushSite.brush = BrushSite.handleRight then
            min ve (500 - toff) else 500
        if nb0 ≤ ne0 then (some nb0, some ne0) else (some ne0, some nb0)) := by
  exact brush_viewport_clamp_amended brushBaseProps brushDragState BrushSite.brush
    100 0 400 500 800 0 rfl rfl (by decide) rfl rfl rfl rfl

/-- C8 counterexample: a Brush move event with undefined pixel coordinates
during a brush-body drag is NOT ignored: `timeRangeUpdateCheck` has no
undefined-coordinate guard, so `onTimeRangeChanged` is still invoked — with
a NaN-propagated (undefined) range. -/
theorem brush_move_undefined_not_ignored_counterexample :
    timeRangeUpdateCheck brushBaseProps brushDragState none none =
      some (none, none) := by
  rfl

/-- C8 amended: the EventHandler move path does ignore any move event with
an undefined pixel coordinate — state is unchanged and no callback fires —
but the Brush move path has no such guard and still invokes
`onTimeRangeChanged` during a drag (see the counterexample). -/
theorem eventhandler_move_undefined_ignored_amended (p : EHProps) (s : EHState)
    (px py : Option ℤ) (h : px = none ∨ py = none) :
    handleUserInteractionMove p s px py = (s, []) := by
  rcases h with h | h
  · subst h; cases py <;> rfl
  · subst h; cases px <;> rfl

/-- Witness for `eventhandler_move_undefined_ignored_amended`: an undefined
x coordinate with a defined y. -/
theorem eventhandler_move_undefined_ignored_amended_witness :
    handleUserInteractionMove ehBaseProps ehInitState none (some 5) =
      (ehInitState, []) :=
  eventhandler_move_undefined_ignored_amended ehBaseProps ehInitState none (some 5)
    (Or.inl rfl)

/-- C9 counterexample: with both pinch callbacks supplied, the three-finger
sequence touchstart(2 touches), touchstart(3 touches), touchend(2 touches
remaining) fires `onPinchZoomEnd` at the final event even though the touch
count goes 3 -> 2 and never drops below the 2-touch threshold: the end
callback is fired by ANY touchend while the pinch flag is set, not by the
transition to fewer than 2 touches. -/
theorem pinch_transition_counterexample :
    runTouchPinch { hasOnPinchZoomStart := true, hasOnPinchZoomEnd := true } false
      [TouchEv.tstart 2, TouchEv.tstart 3, TouchEv.tdone 2] =
      (false, [PinchCall.start, PinchCall.stop]) := by
  rfl

/-- C9 amended: the pinch callbacks strictly alternate, `onPinchZoomStart`
first (both are guarded by the `isPinchZooming` flag: start fires on a
2+-touch touchstart only while the flag is clear, end only while it is
set); but `onPinchZoomEnd` is fired by every touchend/touchcancel while the
flag is set, including ones that leave 2 or more touches active, so it is
not tied to dropping below the 2-touch threshold. -/
theorem pinch_callbacks_alternate_amended (p : PinchProps) (flag : Bool)
    (evs : List TouchEv) :
    pinchAlt flag (runTouchPinch p flag evs).2 = true := by
  induction evs generalizing flag with
  | nil => cases flag <;> rfl
  | cons ev rest ih =>
    cases ev with
    | tstart n =>
      simp only [runTouchPinch, touchStepPinch, handleTouchStartPinch]
      split_ifs with h1 h2
      · have hf : flag = false := by
          rcases Bool.and_eq_true .. |>.mp h2 with ⟨_, hh⟩
          simpa using hh
        subst hf
        simpa [pinchAlt] using ih true
      · simpa using ih flag
      · simpa using ih flag
    | tdone n =>
      simp only [runTouchPinch, touchStepPinch, handleTouchDonePinch]
      split_ifs with h1
      · have hf : flag = true := by
          rcases Bool.and_eq_true .. |>.mp h1 with ⟨_, hh⟩
          exact hh
        subst hf
        simpa [pinchAlt] using ih false
      · simpa using ih flag

/-- C10: during an overlay-initiated brush drag whose captured anchor lies
inside the current viewport, every emitted range is ordered and contained
in the viewport — viewport.begin <= begin <= end <= viewport.end — and the
overlay branch computes this directly, with no swap step. -/
theorem overlay_brush_bounded (p : BrushProps) (s : BrushState) (x y t0 : ℤ)
    (hb : s.isBrushing = true)
    (hsite : s.brushInitSite = some BrushSite.overlay)
    (htb : s.initialBrushBeginTime = some t0)
    (hte : s.initialBrushEndTime = some t0)
    (hcb : p.hasOnTimeRangeChanged = true)
    (hlo : p.invert 0 ≤ t0) (hhi : t0 ≤ p.invert p.width) :
    ∃ nb ne : ℤ,
      timeRangeUpdateCheck p s (some x) (some y) = some (some nb, some ne) ∧
        p.invert 0 ≤ nb ∧ nb ≤ ne ∧ ne ≤ p.invert p.width := by
  simp only [timeRangeUpdateCheck, hb, htb, hte, hsite, hcb, if_true, eq_self_iff_true,
    jsub, jinvert, jlt, jgt, decide_eq_true_eq]
  split_ifs <;> exact ⟨_, _, rfl, by omega⟩

/-- Witness for `overlay_brush_bounded`: overlay drag anchored at time 300
in the viewport [0, 1000], cursor at page x 700. -/
theorem overlay_brush_bounded_witness :
    ∃ nb ne : ℤ,
      timeRangeUpdateCheck brushBaseProps
        { isBrushing := true
          brushInitSite := some BrushSite.overlay
          initialBrushBeginTime := some 300
          initialBrushEndTime := some 300
          initialBrushXYPosition := none }
        (some 700) (some 0) = some (some nb, some ne) ∧
        brushBaseProps.invert 0 ≤ nb ∧ nb ≤ ne ∧
          ne ≤ brushBaseProps.invert brushBaseProps.width := by
  exact overlay_brush_bounded brushBaseProps _ 700 0 300 rfl rfl rfl rfl rfl
    (by decide) (by decide)
